import Mathlib

/-!
# killer: escalating process termination

A shallow embedding of `killer.go`.  The operating system is an input: every
call of `syscall.Kill` is answered by a value the caller of the model supplies
(the answer to the signal-0 probe, the answer to the k-th `SIGTERM`, the answer
to the `SIGKILL`).  Every function returns, next to its Go result, the list of
system calls it made, in order.  Go `int` is the 64-bit two's complement
integer; additions and multiplications wrap.
-/

namespace Killer

/-- The values of `syscall.Errno` the program tells apart, and all the others. -/
inductive Errno where
  | ESRCH
  | EPERM
  | EINVAL
  | other (code : Nat)
  deriving DecidableEq, Repr

/-- The three signals the program passes to `syscall.Kill`. -/
inductive Signal where
  | SIG0
  | SIGTERM
  | SIGKILL
  deriving DecidableEq, Repr

/-- One system call made by the program: `syscall.Kill(pid, sig)` together with
the `error` it returned (`none` is Go `nil`), or `time.Sleep(d)` with `d` in
nanoseconds. -/
inductive Event where
  | kill (sig : Signal) (res : Option Errno)
  | sleep (ns : Int)
  deriving DecidableEq, Repr

/-- Two's complement wrap-around of a Go `int` (64 bits). -/
def wrapInt (x : Int) : Int := (x + 2 ^ 63) % 2 ^ 64 - 2 ^ 63

/-- The answers of the operating system to the calls of one run: `probe` to
`Kill(pid, 0)`, `term k` to the k-th `Kill(pid, SIGTERM)` (counted from 0),
`force` to `Kill(pid, SIGKILL)`. -/
structure Kernel where
  probe : Option Errno
  term : Nat → Option Errno
  force : Option Errno

/-- `processExists`: `res == nil || res != syscall.ESRCH`, and the call made. -/
def processExists (probe : Option Errno) : Bool × List Event :=
  let res := probe
  (res == none || res != some Errno.ESRCH, [Event.kill Signal.SIG0 res])

/-- The variables of the `for` loop of `killNicely` at the head of an iteration:
`elapsed`, the number of `SIGTERM` sent so far, and the calls made so far. -/
structure LoopState where
  elapsed : Int
  sent : Nat
  trace : List Event
  deriving DecidableEq, Repr

/-- What one pass through the body of the loop does: return, or go round again. -/
inductive Iter where
  | ret (stopped : Bool) (err : Option Errno) (trace : List Event)
  | next (s : LoopState)
  deriving DecidableEq, Repr

/-- The body of the `for` loop of `killNicely`. -/
def loopBody (term : Nat → Option Errno) (interval timeout : Int) (s : LoopState) : Iter :=
  let res := term s.sent
  let tr := s.trace ++ [Event.kill Signal.SIGTERM res]
  if res = some Errno.ESRCH then Iter.ret true none tr
  else if res = some Errno.EPERM then Iter.ret false res tr
  else if res = some Errno.EINVAL then Iter.ret false res tr
  else if s.elapsed ≥ timeout then Iter.ret false none tr
  else
    Iter.next
      { elapsed := wrapInt (s.elapsed + interval)
        sent := s.sent + 1
        trace := tr ++ [Event.sleep (wrapInt (interval * 1000000000))] }

/-- The loop of `killNicely` run from state `s` for at most `fuel` iterations;
`none` when it has not returned by then. -/
def killNicelyFrom (term : Nat → Option Errno) (interval timeout : Int) :
    Nat → LoopState → Option (Bool × Option Errno × List Event)
  | 0, _ => none
  | fuel + 1, s =>
    match loopBody term interval timeout s with
    | Iter.ret stopped err tr => some (stopped, err, tr)
    | Iter.next s1 => killNicelyFrom term interval timeout fuel s1

/-- The state with which `killNicely` enters its loop: `elapsed := 0`. -/
def loopInit : LoopState := { elapsed := 0, sent := 0, trace := [] }

/-- `killNicely`: the pair `(bool, error)` it returns and the calls it made, or
`none` when the loop is still running after `fuel` iterations. -/
def killNicely (term : Nat → Option Errno) (interval timeout : Int) (fuel : Nat) :
    Option (Bool × Option Errno × List Event) :=
  killNicelyFrom term interval timeout fuel loopInit

/-- The state of the loop of `killNicely` at the head of iteration `n` (counted
from 0), or `none` when the loop has returned before. -/
def loopHead (term : Nat → Option Errno) (interval timeout : Int) : Nat → Option LoopState
  | 0 => some loopInit
  | n + 1 =>
    match loopHead term interval timeout n with
    | none => none
    | some s =>
      match loopBody term interval timeout s with
      | Iter.ret _ _ _ => none
      | Iter.next s1 => some s1

/-- `killNotSoNicely`: the `error` it returns and the call it made. -/
def killNotSoNicely (force : Option Errno) : Option Errno × List Event :=
  let res := force
  if res = none ∨ res = some Errno.ESRCH then (none, [Event.kill Signal.SIGKILL res])
  else (res, [Event.kill Signal.SIGKILL res])

/-- How `main` ends: by returning (exit status 0) or in one of its `log.Fatal`
calls after the flags are parsed (exit status 1). -/
inductive Exit where
  | ok
  | fatalNoProcess (pid : Int)
  | fatalError (e : Errno)
  | fatalTimeout (pid : Int)
  deriving DecidableEq, Repr

/-- A finished run of `main`: how it ended and the calls it made. -/
structure Run where
  exit : Exit
  trace : List Event
  deriving DecidableEq, Repr

/-- `main` from line 103 on, that is with the flags parsed and the process
found: `none` when the loop of `killNicely` is still running after `fuel`
iterations. -/
def main (os : Kernel) (pid interval timeout : Int) (disableKill : Bool) (fuel : Nat) :
    Option Run :=
  let (ex, tr0) := processExists os.probe
  if !ex then some { exit := Exit.fatalNoProcess pid, trace := tr0 }
  else
    match killNicely os.term interval timeout fuel with
    | none => none
    | some (stopped, err, tr1) =>
      match err with
      | some e => some { exit := Exit.fatalError e, trace := tr0 ++ tr1 }
      | none =>
        if !stopped && !disableKill then
          match killNotSoNicely os.force with
          | (some e, tr2) => some { exit := Exit.fatalError e, trace := tr0 ++ tr1 ++ tr2 }
          | (none, tr2) => some { exit := Exit.ok, trace := tr0 ++ tr1 ++ tr2 }
        else if !stopped then
          some { exit := Exit.fatalTimeout pid, trace := tr0 ++ tr1 }
        else some { exit := Exit.ok, trace := tr0 ++ tr1 }

/-- The number of times signal `sig` was sent in a list of calls. -/
def sentCount (sig : Signal) : List Event → Nat
  | [] => 0
  | Event.kill s _ :: tr => (if s = sig then 1 else 0) + sentCount sig tr
  | Event.sleep _ :: tr => sentCount sig tr

/-- The number of calls of `time.Sleep` in a list of calls. -/
def sleepCount : List Event → Nat
  | [] => 0
  | Event.kill _ _ :: tr => sleepCount tr
  | Event.sleep _ :: tr => 1 + sleepCount tr

/-- The time slept in a list of calls, in nanoseconds: `time.Sleep` returns at
once for a duration that is zero or negative. -/
def sleptNs : List Event → Int
  | [] => 0
  | Event.kill _ _ :: tr => sleptNs tr
  | Event.sleep d :: tr => max d 0 + sleptNs tr

/-- The ceiling of `max timeout 0 / interval`, for `interval ≥ 1`. -/
def maxSleeps (interval timeout : Int) : Nat :=
  ((max timeout 0 + interval - 1) / interval).toNat

/-- A kernel in which the process exists and never reacts to `SIGTERM`. -/
def stubborn (force : Option Errno) : Kernel :=
  { probe := none, term := fun _ => none, force := force }

/-- A kernel in which the process is gone: every call answers `ESRCH`. -/
def gone : Kernel :=
  { probe := some Errno.ESRCH, term := fun _ => some Errno.ESRCH, force := some Errno.ESRCH }

/-! ## Counting calls in a trace -/

theorem sentCount_append (sig : Signal) (a b : List Event) :
    sentCount sig (a ++ b) = sentCount sig a + sentCount sig b := by
  induction a with
  | nil => simp [sentCount]
  | cons e a ih =>
    cases e with
    | kill s r => simp [sentCount, ih, Nat.add_assoc]
    | sleep d => simp [sentCount, ih]

theorem sleepCount_append (a b : List Event) :
    sleepCount (a ++ b) = sleepCount a + sleepCount b := by
  induction a with
  | nil => simp [sleepCount]
  | cons e a ih =>
    cases e with
    | kill s r => simp [sleepCount, ih]
    | sleep d => simp [sleepCount, ih, Nat.add_assoc]

theorem sleptNs_append (a b : List Event) :
    sleptNs (a ++ b) = sleptNs a + sleptNs b := by
  induction a with
  | nil => simp [sleptNs]
  | cons e a ih =>
    cases e with
    | kill s r => simp [sleptNs, ih]
    | sleep d => simp [sleptNs, ih, add_assoc]

/-! ## The loop: fuel and loop heads -/

theorem killNicelyFrom_mono (term : Nat → Option Errno) (interval timeout : Int)
    (fuel extra : Nat) (s : LoopState) (r : Bool × Option Errno × List Event)
    (h : killNicelyFrom term interval timeout fuel s = some r) :
    killNicelyFrom term interval timeout (fuel + extra) s = some r := by
  induction fuel generalizing s with
  | zero => simp [killNicelyFrom] at h
  | succ fuel ih =>
    rw [Nat.succ_add]
    simp only [killNicelyFrom] at h ⊢
    cases hb : loopBody term interval timeout s with
    | ret st err tr => rw [hb] at h; simpa using h
    | next s1 => rw [hb] at h; exact ih s1 h

theorem killNicelyFrom_of_le (term : Nat → Option Errno) (interval timeout : Int)
    (fuel fuel2 : Nat) (s : LoopState) (r : Bool × Option Errno × List Event)
    (h : killNicelyFrom term interval timeout fuel s = some r) (hle : fuel ≤ fuel2) :
    killNicelyFrom term interval timeout fuel2 s = some r := by
  obtain ⟨extra, rfl⟩ := Nat.exists_eq_add_of_le hle
  exact killNicelyFrom_mono term interval timeout fuel extra s r h

/-- The head of iteration `n + 1` is reached from the head of iteration `n` by
a pass through the body that does not return. -/
theorem loopHead_succ (term : Nat → Option Errno) (interval timeout : Int)
    (n : Nat) (s : LoopState) (h : loopHead term interval timeout (n + 1) = some s) :
    ∃ p, loopHead term interval timeout n = some p ∧
      loopBody term interval timeout p = Iter.next s := by
  simp only [loopHead] at h
  cases hp : loopHead term interval timeout n with
  | none => rw [hp] at h; simp at h
  | some p =>
    rw [hp] at h
    simp only at h
    cases hb : loopBody term interval timeout p with
    | ret st err tr => rw [hb] at h; simp at h
    | next s1 =>
      rw [hb] at h
      simp only [Option.some.injEq] at h
      exact ⟨p, rfl, by rw [← h]; exact hb⟩

theorem loopHead_step (term : Nat → Option Errno) (interval timeout : Int)
    (n : Nat) (p s : LoopState) (hp : loopHead term interval timeout n = some p)
    (hb : loopBody term interval timeout p = Iter.next s) :
    loopHead term interval timeout (n + 1) = some s := by
  simp only [loopHead, hp, hb]

/-- Once the loop has reached the head of iteration `n` in state `s`, running it
from the start with `n + fuel` iterations is running it from `s` with `fuel`. -/
theorem killNicely_of_loopHead (term : Nat → Option Errno) (interval timeout : Int)
    (n fuel : Nat) (s : LoopState) (h : loopHead term interval timeout n = some s) :
    killNicely term interval timeout (n + fuel) = killNicelyFrom term interval timeout fuel s := by
  induction n generalizing s fuel with
  | zero =>
    simp only [loopHead, Option.some.injEq] at h
    simp [killNicely, h]
  | succ n ih =>
    obtain ⟨p, hp, hb⟩ := loopHead_succ term interval timeout n s h
    have := ih (fuel + 1) p hp
    rw [show n + 1 + fuel = n + (fuel + 1) by omega, this]
    simp [killNicelyFrom, hb]

/-- The loop returns in the iteration whose head is `s` when the body returns there. -/
theorem killNicely_returns_at (term : Nat → Option Errno) (interval timeout : Int)
    (n fuel : Nat) (s : LoopState) (st : Bool) (err : Option Errno) (tr : List Event)
    (h : loopHead term interval timeout n = some s)
    (hb : loopBody term interval timeout s = Iter.ret st err tr) (hfuel : n < fuel) :
    killNicely term interval timeout fuel = some (st, err, tr) := by
  obtain ⟨extra, rfl⟩ := Nat.exists_eq_add_of_le hfuel
  rw [show n.succ + extra = n + (extra + 1) by omega,
    killNicely_of_loopHead term interval timeout n (extra + 1) s h]
  simp [killNicelyFrom, hb]

/-- The loop is still running after `fuel` iterations when the head of
iteration `fuel` is reached. -/
theorem killNicely_none_of_loopHead (term : Nat → Option Errno) (interval timeout : Int)
    (n : Nat) (s : LoopState) (h : loopHead term interval timeout n = some s) :
    killNicely term interval timeout n = none := by
  have := killNicely_of_loopHead term interval timeout n 0 s h
  simpa [killNicelyFrom] using this

/-- At a loop head the trace holds as many `SIGTERM` and as many sleeps as
iterations were made, and no other signal. -/
theorem loopHead_counts (term : Nat → Option Errno) (interval timeout : Int)
    (n : Nat) (s : LoopState) (h : loopHead term interval timeout n = some s) :
    s.sent = n ∧ sentCount Signal.SIGTERM s.trace = n ∧ sleepCount s.trace = n ∧
      sentCount Signal.SIGKILL s.trace = 0 ∧ sentCount Signal.SIG0 s.trace = 0 := by
  induction n generalizing s with
  | zero =>
    simp only [loopHead, Option.some.injEq] at h
    subst h
    simp [loopInit, sentCount, sleepCount]
  | succ n ih =>
    obtain ⟨p, hp, hb⟩ := loopHead_succ term interval timeout n s h
    obtain ⟨h1, h2, h3, h4, h5⟩ := ih p hp
    unfold loopBody at hb
    simp only at hb
    split_ifs at hb
    simp only [Iter.next.injEq] at hb
    subst hb
    simp [sentCount_append, sleepCount_append, sentCount, sleepCount, h1, h2, h3, h4, h5]

/-! ## Unfolding `main` -/

theorem main_no_process (os : Kernel) (pid interval timeout : Int) (disableKill : Bool)
    (fuel : Nat) (h : os.probe = some Errno.ESRCH) :
    main os pid interval timeout disableKill fuel =
      some { exit := Exit.fatalNoProcess pid,
             trace := [Event.kill Signal.SIG0 (some Errno.ESRCH)] } := by
  simp [main, processExists, h]

theorem main_of_killNicely (os : Kernel) (pid interval timeout : Int) (disableKill : Bool)
    (fuel : Nat) (h : os.probe ≠ some Errno.ESRCH) :
    main os pid interval timeout disableKill fuel =
      match killNicely os.term interval timeout fuel with
      | none => none
      | some (stopped, err, tr1) =>
        match err with
        | some e =>
          some { exit := Exit.fatalError e, trace := Event.kill Signal.SIG0 os.probe :: tr1 }
        | none =>
          if !stopped && !disableKill then
            match killNotSoNicely os.force with
            | (some e, tr2) =>
              some { exit := Exit.fatalError e,
                     trace := Event.kill Signal.SIG0 os.probe :: (tr1 ++ tr2) }
            | (none, tr2) =>
              some { exit := Exit.ok, trace := Event.kill Signal.SIG0 os.probe :: (tr1 ++ tr2) }
          else if !stopped then
            some { exit := Exit.fatalTimeout pid, trace := Event.kill Signal.SIG0 os.probe :: tr1 }
          else some { exit := Exit.ok, trace := Event.kill Signal.SIG0 os.probe :: tr1 } := by
  have hex : (os.probe == none || os.probe != some Errno.ESRCH) = true := by
    simp [h]
  simp only [main, processExists, hex]
  rfl

theorem main_mono (os : Kernel) (pid interval timeout : Int) (disableKill : Bool)
    (fuel extra : Nat) (r : Run) (h : main os pid interval timeout disableKill fuel = some r) :
    main os pid interval timeout disableKill (fuel + extra) = some r := by
  by_cases hp : os.probe = some Errno.ESRCH
  · rw [main_no_process os pid interval timeout disableKill _ hp] at h ⊢
    exact h
  · rw [main_of_killNicely os pid interval timeout disableKill _ hp] at h ⊢
    cases hk : killNicely os.term interval timeout fuel with
    | none => rw [hk] at h; simp at h
    | some q =>
      have hq : killNicely os.term interval timeout (fuel + extra) = some q :=
        killNicelyFrom_mono os.term interval timeout fuel extra loopInit q hk
      rw [hk] at h
      rw [hq]
      exact h

/-- The loop returns `(false, nil)` in the iteration in which the signal is
delivered and `elapsed` has reached the timeout. -/
theorem loopBody_timeout (term : Nat → Option Errno) (interval timeout : Int) (s : LoopState)
    (hdel : term s.sent = none) (hreach : timeout ≤ s.elapsed) :
    loopBody term interval timeout s =
      Iter.ret false none (s.trace ++ [Event.kill Signal.SIGTERM none]) := by
  simp [loopBody, hdel, hreach]

/-- The loop returns the error in the iteration in which the signal is answered
`EPERM` or `EINVAL`. -/
theorem loopBody_error (term : Nat → Option Errno) (interval timeout : Int) (s : LoopState)
    (e : Errno) (he : e = Errno.EPERM ∨ e = Errno.EINVAL) (hres : term s.sent = some e) :
    loopBody term interval timeout s =
      Iter.ret false (some e) (s.trace ++ [Event.kill Signal.SIGTERM (some e)]) := by
  rcases he with rfl | rfl <;> simp [loopBody, hres]

/-! ## Arithmetic of the loop -/

/-- A value in the range of a Go `int` is not changed by the wrap-around. -/
theorem wrapInt_of_fits (x : Int) (hlo : -(2 ^ 63) ≤ x) (hhi : x < 2 ^ 63) : wrapInt x = x := by
  unfold wrapInt
  norm_num at hlo hhi ⊢
  omega

/-- The number `maxSleeps` is the ceiling of `max timeout 0 / interval`: the least
multiple of the interval that is at least `max timeout 0`. -/
theorem maxSleeps_spec (interval timeout : Int) (hint : 1 ≤ interval) :
    max timeout 0 ≤ interval * (maxSleeps interval timeout : Int) ∧
      interval * (maxSleeps interval timeout : Int) < max timeout 0 + interval := by
  have hpos : 0 < interval := by omega
  have hT : 0 ≤ max timeout 0 := le_max_right _ _
  have hq : 0 ≤ (max timeout 0 + interval - 1) / interval :=
    Int.ediv_nonneg (by omega) (by omega)
  have hN : (maxSleeps interval timeout : Int) = (max timeout 0 + interval - 1) / interval := by
    unfold maxSleeps
    exact Int.toNat_of_nonneg hq
  have h1 := Int.ediv_mul_le (max timeout 0 + interval - 1) (ne_of_gt hpos)
  have h2 := Int.lt_ediv_add_one_mul_self (max timeout 0 + interval - 1) hpos
  rw [hN]
  constructor
  · nlinarith
  · nlinarith

/-- What the body of the loop does, by cases: it returns after its `SIGTERM`,
or it goes round with `elapsed` below the timeout. -/
theorem loopBody_cases (term : Nat → Option Errno) (interval timeout : Int) (s : LoopState) :
    (∃ st err, loopBody term interval timeout s =
        Iter.ret st err (s.trace ++ [Event.kill Signal.SIGTERM (term s.sent)])) ∨
      (s.elapsed < timeout ∧
        loopBody term interval timeout s =
          Iter.next
            { elapsed := wrapInt (s.elapsed + interval)
              sent := s.sent + 1
              trace := s.trace ++ [Event.kill Signal.SIGTERM (term s.sent)] ++
                [Event.sleep (wrapInt (interval * 1000000000))] }) := by
  unfold loopBody
  simp only
  split_ifs with h1 h2 h3 h4
  · exact Or.inl ⟨_, _, rfl⟩
  · exact Or.inl ⟨_, _, rfl⟩
  · exact Or.inl ⟨_, _, rfl⟩
  · exact Or.inl ⟨_, _, rfl⟩
  · exact Or.inr ⟨by omega, rfl⟩

/-- The loop goes round when the signal is delivered and `elapsed` is below the
timeout. -/
theorem loopBody_delivered_next (term : Nat → Option Errno) (interval timeout : Int)
    (s : LoopState) (hdel : term s.sent = none) (hlt : s.elapsed < timeout) :
    loopBody term interval timeout s =
      Iter.next
        { elapsed := wrapInt (s.elapsed + interval)
          sent := s.sent + 1
          trace := s.trace ++ [Event.kill Signal.SIGTERM none] ++
            [Event.sleep (wrapInt (interval * 1000000000))] } := by
  unfold loopBody
  simp only [hdel]
  rw [if_neg (by simp), if_neg (by simp), if_neg (by simp), if_neg (by omega)]

/-- The time slept up to a loop head: one interval, as `time.Sleep` sees it, for
each iteration made. -/
theorem loopHead_sleptNs (term : Nat → Option Errno) (interval timeout : Int)
    (n : Nat) (s : LoopState) (h : loopHead term interval timeout n = some s) :
    sleptNs s.trace = (n : Int) * max (wrapInt (interval * 1000000000)) 0 := by
  induction n generalizing s with
  | zero =>
    simp only [loopHead, Option.some.injEq] at h
    subst h
    simp [loopInit, sleptNs]
  | succ n ih =>
    obtain ⟨p, hp, hb⟩ := loopHead_succ term interval timeout n s h
    rcases loopBody_cases term interval timeout p with ⟨st, err, hr⟩ | ⟨-, hn⟩
    · rw [hr] at hb; cases hb
    · rw [hn] at hb
      simp only [Iter.next.injEq] at hb
      subst hb
      simp only [sleptNs_append, sleptNs, ih p hp]
      push_cast
      ring

/-- With an interval of at least one second and no overflow of `elapsed`, at
the head of iteration `n` the loop has `elapsed = interval * n`, and `n` is at
most the ceiling of `max timeout 0 / interval`. -/
theorem loopHead_elapsed (term : Nat → Option Errno) (interval timeout : Int)
    (hint : 1 ≤ interval) (hexact : interval * (maxSleeps interval timeout : Int) < 2 ^ 63)
    (n : Nat) (s : LoopState) (h : loopHead term interval timeout n = some s) :
    n ≤ maxSleeps interval timeout ∧ s.elapsed = interval * (n : Int) := by
  obtain ⟨hge, -⟩ := maxSleeps_spec interval timeout hint
  induction n generalizing s with
  | zero =>
    simp only [loopHead, Option.some.injEq] at h
    subst h
    simp [loopInit]
  | succ n ih =>
    obtain ⟨p, hp, hb⟩ := loopHead_succ term interval timeout n s h
    obtain ⟨hn, hel⟩ := ih p hp
    rcases loopBody_cases term interval timeout p with ⟨st, err, hr⟩ | ⟨hlt, hnext⟩
    · rw [hr] at hb; cases hb
    · rw [hnext] at hb
      simp only [Iter.next.injEq] at hb
      subst hb
      have hlt2 : interval * (n : Int) < interval * (maxSleeps interval timeout : Int) := by
        have : timeout ≤ max timeout 0 := le_max_left _ _
        rw [hel] at hlt
        omega
      have hnN : n < maxSleeps interval timeout := by
        have := lt_of_mul_lt_mul_left hlt2 (by omega : (0 : Int) ≤ interval)
        exact_mod_cast this
      have hstep : interval * ((n + 1 : Nat) : Int) ≤
          interval * (maxSleeps interval timeout : Int) :=
        mul_le_mul_of_nonneg_left (by exact_mod_cast hnN) (by omega)
      have hnonneg : 0 ≤ interval * ((n + 1 : Nat) : Int) :=
        mul_nonneg (by omega) (by positivity)
      refine ⟨hnN, ?_⟩
      simp only
      rw [hel, show interval * (n : Int) + interval = interval * ((n + 1 : Nat) : Int) by
        push_cast; ring]
      generalize interval * ((n + 1 : Nat) : Int) = e at hstep hnonneg ⊢
      generalize interval * (maxSleeps interval timeout : Int) = b at hexact hstep
      exact wrapInt_of_fits e (by norm_num; omega) (by omega)

/-- With an interval of at least one second and no overflow of `elapsed`, the
loop returns in some iteration `m`, at most the ceiling of
`max timeout 0 / interval`. -/
theorem loop_returns (term : Nat → Option Errno) (interval timeout : Int)
    (hint : 1 ≤ interval) (hexact : interval * (maxSleeps interval timeout : Int) < 2 ^ 63) :
    ∃ m s st err, m ≤ maxSleeps interval timeout ∧
      loopHead term interval timeout m = some s ∧
      loopBody term interval timeout s =
        Iter.ret st err (s.trace ++ [Event.kill Signal.SIGTERM (term s.sent)]) := by
  have key : ∀ n, (∃ m s st err, m ≤ n ∧ loopHead term interval timeout m = some s ∧
      loopBody term interval timeout s =
        Iter.ret st err (s.trace ++ [Event.kill Signal.SIGTERM (term s.sent)])) ∨
      ∃ s, loopHead term interval timeout (n + 1) = some s := by
    intro n
    induction n with
    | zero =>
      rcases loopBody_cases term interval timeout loopInit with ⟨st, err, hr⟩ | ⟨-, hnext⟩
      · exact Or.inl ⟨0, loopInit, st, err, le_rfl, rfl, hr⟩
      · exact Or.inr ⟨_, loopHead_step term interval timeout 0 loopInit _ rfl hnext⟩
    | succ n ih =>
      rcases ih with ⟨m, s, st, err, hm, hs, hr⟩ | ⟨s, hs⟩
      · exact Or.inl ⟨m, s, st, err, Nat.le_succ_of_le hm, hs, hr⟩
      · rcases loopBody_cases term interval timeout s with ⟨st, err, hr⟩ | ⟨-, hnext⟩
        · exact Or.inl ⟨n + 1, s, st, err, le_rfl, hs, hr⟩
        · exact Or.inr ⟨_, loopHead_step term interval timeout (n + 1) s _ hs hnext⟩
  rcases key (maxSleeps interval timeout) with h | ⟨s, hs⟩
  · exact h
  · have := (loopHead_elapsed term interval timeout hint hexact _ s hs).1
    omega

/-- When every `SIGTERM` is delivered, with an interval of at least one second
and no overflow of `elapsed`, the loop reaches the head of every iteration up
to the ceiling of `max timeout 0 / interval`. -/
theorem loop_delivered_reaches (term : Nat → Option Errno) (interval timeout : Int)
    (hint : 1 ≤ interval) (hexact : interval * (maxSleeps interval timeout : Int) < 2 ^ 63)
    (hdel : ∀ k, term k = none) (n : Nat) (hn : n ≤ maxSleeps interval timeout) :
    ∃ s, loopHead term interval timeout n = some s := by
  obtain ⟨-, hlt⟩ := maxSleeps_spec interval timeout hint
  induction n with
  | zero => exact ⟨loopInit, rfl⟩
  | succ n ih =>
    obtain ⟨p, hp⟩ := ih (by omega)
    obtain ⟨-, hel⟩ := loopHead_elapsed term interval timeout hint hexact n p hp
    have hstep : interval * ((n + 1 : Nat) : Int) ≤
        interval * (maxSleeps interval timeout : Int) :=
      mul_le_mul_of_nonneg_left (by exact_mod_cast hn) (by omega)
    have hnn : 0 ≤ interval * (n : Int) := mul_nonneg (by omega) (by positivity)
    have hlt2 : p.elapsed < timeout := by
      rw [hel]
      push_cast at hstep
      rw [mul_add, mul_one] at hstep
      omega
    exact ⟨_, loopHead_step term interval timeout n p _ hp
      (loopBody_delivered_next term interval timeout p (hdel _) hlt2)⟩

/-! ## The claims -/

/-- C2: when the first `SIGTERM` of `killNicely` is answered `ESRCH`, then for
every interval and timeout `killNicely` returns `(true, nil)` having made one
call only, that `SIGTERM`: one graceful signal, no sleep, no time slept.  `main`
(the probe having found the process) then returns normally, and its calls are
the probe and that `SIGTERM`: no `SIGKILL`. -/
theorem C2_first_signal_no_such_process (os : Kernel) (pid interval timeout : Int)
    (disableKill : Bool) (fuel : Nat) (hprobe : os.probe ≠ some Errno.ESRCH)
    (hfirst : os.term 0 = some Errno.ESRCH) (hfuel : 1 ≤ fuel) :
    killNicely os.term interval timeout fuel =
        some (true, none, [Event.kill Signal.SIGTERM (some Errno.ESRCH)]) ∧
      sentCount Signal.SIGTERM [Event.kill Signal.SIGTERM (some Errno.ESRCH)] = 1 ∧
      sleepCount [Event.kill Signal.SIGTERM (some Errno.ESRCH)] = 0 ∧
      sleptNs [Event.kill Signal.SIGTERM (some Errno.ESRCH)] = 0 ∧
      main os pid interval timeout disableKill fuel =
        some { exit := Exit.ok,
               trace := [Event.kill Signal.SIG0 os.probe,
                         Event.kill Signal.SIGTERM (some Errno.ESRCH)] } ∧
      sentCount Signal.SIGKILL
        [Event.kill Signal.SIG0 os.probe, Event.kill Signal.SIGTERM (some Errno.ESRCH)] = 0 := by
  have hb : loopBody os.term interval timeout loopInit =
      Iter.ret true none [Event.kill Signal.SIGTERM (some Errno.ESRCH)] := by
    simp [loopBody, loopInit, hfirst]
  have hk := killNicely_returns_at os.term interval timeout 0 fuel loopInit true none _ rfl hb hfuel
  refine ⟨hk, by simp [sentCount], by simp [sleepCount], by simp [sleptNs], ?_,
    by simp [sentCount]⟩
  rw [main_of_killNicely os pid interval timeout disableKill fuel hprobe, hk]
  simp

/-- An instance of C2: interval 1, timeout 30, the process gone at the first `SIGTERM`. -/
theorem C2_first_signal_no_such_process_witness :
    killNicely (fun _ => some Errno.ESRCH) 1 30 1 =
        some (true, none, [Event.kill Signal.SIGTERM (some Errno.ESRCH)]) ∧
      main { probe := none, term := fun _ => some Errno.ESRCH, force := none } 7 1 30 false 1 =
        some { exit := Exit.ok,
               trace := [Event.kill Signal.SIG0 none,
                         Event.kill Signal.SIGTERM (some Errno.ESRCH)] } :=
  have h := C2_first_signal_no_such_process
    { probe := none, term := fun _ => some Errno.ESRCH, force := none } 7 1 30 false 1
    (by decide) rfl (by decide)
  ⟨h.1, h.2.2.2.2.1⟩

/-- C6: when the probe with signal 0 is answered `ESRCH`, `processExists` is
false and `main` ends in `log.Fatalf` with "Process ... does not exist", whatever
the flags; the probe is the only call it made: no `SIGTERM`, no `SIGKILL`. -/
theorem C6_missing_process_fails_without_signal (os : Kernel) (pid interval timeout : Int)
    (disableKill : Bool) (fuel : Nat) (hprobe : os.probe = some Errno.ESRCH) :
    (processExists os.probe).1 = false ∧
      ∃ r, main os pid interval timeout disableKill fuel = some r ∧
        r.exit = Exit.fatalNoProcess pid ∧
        r.trace = [Event.kill Signal.SIG0 (some Errno.ESRCH)] ∧
        sentCount Signal.SIGTERM r.trace = 0 ∧ sentCount Signal.SIGKILL r.trace = 0 := by
  refine ⟨by simp [processExists, hprobe], _,
    main_no_process os pid interval timeout disableKill fuel hprobe, rfl, rfl, ?_, ?_⟩ <;>
  simp [sentCount]

/-- An instance of C6: the process is gone before the run. -/
theorem C6_missing_process_fails_without_signal_witness :
    (processExists gone.probe).1 = false ∧
      ∃ r, main gone 7 1 30 false 0 = some r ∧
        r.exit = Exit.fatalNoProcess 7 ∧
        r.trace = [Event.kill Signal.SIG0 (some Errno.ESRCH)] ∧
        sentCount Signal.SIGTERM r.trace = 0 ∧ sentCount Signal.SIGKILL r.trace = 0 :=
  C6_missing_process_fails_without_signal gone 7 1 30 false 0 rfl

/-- C7: with timeout 0 and any interval, when the process exists and the first
`SIGTERM` is delivered, the test `elapsed >= timeout` holds at once (0 ≥ 0):
`killNicely` returns `(false, nil)` after one `SIGTERM` and no sleep, and with
`disable-kill` set `main` ends in "Failed to stop ... before timeout", having
sent no `SIGKILL`. -/
theorem C7_zero_timeout (os : Kernel) (pid interval : Int) (fuel : Nat)
    (hprobe : os.probe ≠ some Errno.ESRCH) (hfirst : os.term 0 = none) (hfuel : 1 ≤ fuel) :
    killNicely os.term interval 0 fuel =
        some (false, none, [Event.kill Signal.SIGTERM none]) ∧
      sentCount Signal.SIGTERM [Event.kill Signal.SIGTERM none] = 1 ∧
      sleepCount [Event.kill Signal.SIGTERM none] = 0 ∧
      sleptNs [Event.kill Signal.SIGTERM none] = 0 ∧
      main os pid interval 0 true fuel =
        some { exit := Exit.fatalTimeout pid,
               trace := [Event.kill Signal.SIG0 os.probe, Event.kill Signal.SIGTERM none] } ∧
      sentCount Signal.SIGKILL
        [Event.kill Signal.SIG0 os.probe, Event.kill Signal.SIGTERM none] = 0 := by
  have hb : loopBody os.term interval 0 loopInit =
      Iter.ret false none [Event.kill Signal.SIGTERM none] := by
    simp [loopBody, loopInit, hfirst]
  have hk := killNicely_returns_at os.term interval 0 0 fuel loopInit false none _ rfl hb hfuel
  refine ⟨hk, by simp [sentCount], by simp [sleepCount], by simp [sleptNs], ?_,
    by simp [sentCount]⟩
  rw [main_of_killNicely os pid interval 0 true fuel hprobe, hk]
  simp

/-- An instance of C7: interval 5, timeout 0. -/
theorem C7_zero_timeout_witness :
    killNicely (stubborn none).term 5 0 1 =
        some (false, none, [Event.kill Signal.SIGTERM none]) ∧
      main (stubborn none) 7 5 0 true 1 =
        some { exit := Exit.fatalTimeout 7,
               trace := [Event.kill Signal.SIG0 none, Event.kill Signal.SIGTERM none] } :=
  have h := C7_zero_timeout (stubborn none) 7 5 1 (by decide) rfl (by decide)
  ⟨h.1, h.2.2.2.2.1⟩

/-- C5, as stated, fails: with interval 1, timeout 3 and the forceful kill
allowed, on a process that exists and never reacts to `SIGTERM`, no run of
`main` ends with exactly 3 graceful signals sent. -/
theorem C5_three_attempts_counterexample :
    ¬ ∃ fuel r, main (stubborn none) 7 1 3 false fuel = some r ∧
      sentCount Signal.SIGTERM r.trace = 3 := by
  rintro ⟨fuel, r, hr, hcount⟩
  have h4 : main (stubborn none) 7 1 3 false 4 =
      some { exit := Exit.ok,
             trace := [Event.kill Signal.SIG0 none,
                       Event.kill Signal.SIGTERM none, Event.sleep 1000000000,
                       Event.kill Signal.SIGTERM none, Event.sleep 1000000000,
                       Event.kill Signal.SIGTERM none, Event.sleep 1000000000,
                       Event.kill Signal.SIGTERM none,
                       Event.kill Signal.SIGKILL none] } := by decide
  have h1 := main_mono (stubborn none) 7 1 3 false fuel 4 r hr
  have h2 := main_mono (stubborn none) 7 1 3 false 4 fuel _ h4
  rw [Nat.add_comm, h1] at h2
  simp only [Option.some.injEq] at h2
  subst h2
  revert hcount
  decide

/-- C5, amended: with interval 1, timeout 3 and the forceful kill allowed, on a
process that exists, whose every `SIGTERM` is delivered and whose `SIGKILL` is
answered `nil` or `ESRCH`, `main` sends exactly 4 graceful signals, at elapsed
0, 1, 2 and 3 (the test after the one at 3 ends the loop), sleeps 3 times one
second in between, sends exactly 1 `SIGKILL` and returns normally. -/
theorem C5_four_attempts_then_kill (os : Kernel) (pid : Int) (fuel : Nat)
    (hprobe : os.probe ≠ some Errno.ESRCH) (hterm : ∀ k, os.term k = none)
    (hforce : os.force = none ∨ os.force = some Errno.ESRCH) (hfuel : 4 ≤ fuel) :
    (∀ n, n ≤ 3 → ∃ s, loopHead os.term 1 3 n = some s ∧ s.elapsed = n ∧ s.sent = n) ∧
      loopHead os.term 1 3 4 = none ∧
      ∃ r, main os pid 1 3 false fuel = some r ∧ r.exit = Exit.ok ∧
        r.trace = [Event.kill Signal.SIG0 os.probe,
                   Event.kill Signal.SIGTERM none, Event.sleep 1000000000,
                   Event.kill Signal.SIGTERM none, Event.sleep 1000000000,
                   Event.kill Signal.SIGTERM none, Event.sleep 1000000000,
                   Event.kill Signal.SIGTERM none,
                   Event.kill Signal.SIGKILL os.force] ∧
        sentCount Signal.SIGTERM r.trace = 4 ∧ sleepCount r.trace = 3 ∧
        sentCount Signal.SIGKILL r.trace = 1 := by
  have hfun : os.term = fun _ => none := funext hterm
  have hk4 : killNicely (fun _ => none) 1 3 4 =
      some (false, none,
        [Event.kill Signal.SIGTERM none, Event.sleep 1000000000,
         Event.kill Signal.SIGTERM none, Event.sleep 1000000000,
         Event.kill Signal.SIGTERM none, Event.sleep 1000000000,
         Event.kill Signal.SIGTERM none]) := by decide
  have hk : killNicely os.term 1 3 fuel = _ :=
    hfun ▸ killNicelyFrom_of_le (fun _ => none) 1 3 4 fuel loopInit _ hk4 hfuel
  refine ⟨?_, ?_, ?_⟩
  · intro n hn
    rw [hfun]
    interval_cases n <;> exact ⟨_, rfl, by decide, by decide⟩
  · rw [hfun]; decide
  · rw [main_of_killNicely os pid 1 3 false fuel hprobe, hk]
    have hns : killNotSoNicely os.force = (none, [Event.kill Signal.SIGKILL os.force]) := by
      rcases hforce with h | h <;> simp [killNotSoNicely, h]
    simp [hns, sentCount, sleepCount]

/-- An instance of the amended C5, with the `SIGKILL` delivered. -/
theorem C5_four_attempts_then_kill_witness :
    ∃ r, main (stubborn none) 7 1 3 false 4 = some r ∧ r.exit = Exit.ok ∧
      sentCount Signal.SIGTERM r.trace = 4 ∧ sentCount Signal.SIGKILL r.trace = 1 :=
  have h := C5_four_attempts_then_kill (stubborn none) 7 4 (by decide) (fun _ => rfl)
    (Or.inl rfl) (by decide)
  h.2.2.elim fun r hr => ⟨r, hr.1, hr.2.1, hr.2.2.2.1, hr.2.2.2.2.2⟩

/-- C8, as stated, fails: on a process that is gone (the probe and every other
call are answered `ESRCH`) no run of `main` returns normally. -/
theorem C8_gone_is_success_counterexample :
    ¬ ∃ fuel r, main gone 7 1 30 false fuel = some r ∧ r.exit = Exit.ok := by
  rintro ⟨fuel, r, hr, hok⟩
  rw [main_no_process gone 7 1 30 false fuel rfl] at hr
  simp only [Option.some.injEq] at hr
  subst hr
  simp at hok

/-- C8, amended: on a process that is gone (the probe and every other call are
answered `ESRCH`) the graceful loop and the forceful kill each succeed, for
every interval and timeout and on every invocation: `killNicely` returns
`(true, nil)` after one `SIGTERM`, `killNotSoNicely` returns `nil`.  The whole
of `main`, which starts with the probe, ends on every invocation, for all
flags, in "Process ... does not exist" after the probe alone. -/
theorem C8_gone_process (os : Kernel) (pid interval timeout : Int) (disableKill : Bool)
    (hprobe : os.probe = some Errno.ESRCH) (hterm : ∀ k, os.term k = some Errno.ESRCH)
    (hforce : os.force = some Errno.ESRCH) :
    (∀ fuel, 1 ≤ fuel → killNicely os.term interval timeout fuel =
        some (true, none, [Event.kill Signal.SIGTERM (some Errno.ESRCH)])) ∧
      killNotSoNicely os.force = (none, [Event.kill Signal.SIGKILL (some Errno.ESRCH)]) ∧
      ∀ fuel, main os pid interval timeout disableKill fuel =
        some { exit := Exit.fatalNoProcess pid,
               trace := [Event.kill Signal.SIG0 (some Errno.ESRCH)] } := by
  refine ⟨?_, by simp [killNotSoNicely, hforce], fun fuel =>
    main_no_process os pid interval timeout disableKill fuel hprobe⟩
  intro fuel hfuel
  have hb : loopBody os.term interval timeout loopInit =
      Iter.ret true none [Event.kill Signal.SIGTERM (some Errno.ESRCH)] := by
    simp [loopBody, loopInit, hterm 0]
  exact killNicely_returns_at os.term interval timeout 0 fuel loopInit true none _ rfl hb hfuel

/-- An instance of the amended C8: interval 1, timeout 30. -/
theorem C8_gone_process_witness :
    killNicely gone.term 1 30 1 =
        some (true, none, [Event.kill Signal.SIGTERM (some Errno.ESRCH)]) ∧
      killNotSoNicely gone.force = (none, [Event.kill Signal.SIGKILL (some Errno.ESRCH)]) ∧
      main gone 7 1 30 false 1 =
        some { exit := Exit.fatalNoProcess 7,
               trace := [Event.kill Signal.SIG0 (some Errno.ESRCH)] } :=
  have h := C8_gone_process gone 7 1 30 false rfl (fun _ => rfl) rfl
  ⟨h.1 1 (by decide), h.2.1, h.2.2 1⟩

/-- C3: with `disable-kill` set, when the process exists, the loop of
`killNicely` reaches the head of an iteration `n` with `elapsed >= timeout`, and
every `SIGTERM` up to that iteration is delivered, `killNicely` returns
`(false, nil)` and `main` ends in "Failed to stop ... before timeout"; the calls
of the run are the probe and those of the loop, with no `SIGKILL` among them. -/
theorem C3_timeout_without_kill (os : Kernel) (pid interval timeout : Int) (n fuel : Nat)
    (s : LoopState) (hprobe : os.probe ≠ some Errno.ESRCH)
    (hhead : loopHead os.term interval timeout n = some s)
    (hdelivered : ∀ k, k ≤ n → os.term k = none) (hreach : timeout ≤ s.elapsed)
    (hfuel : n < fuel) :
    killNicely os.term interval timeout fuel =
        some (false, none, s.trace ++ [Event.kill Signal.SIGTERM none]) ∧
      ∃ r, main os pid interval timeout true fuel = some r ∧
        r.exit = Exit.fatalTimeout pid ∧
        r.trace = Event.kill Signal.SIG0 os.probe ::
          (s.trace ++ [Event.kill Signal.SIGTERM none]) ∧
        sentCount Signal.SIGKILL r.trace = 0 ∧ sentCount Signal.SIGTERM r.trace = n + 1 := by
  obtain ⟨hsent, hterm, -, hkill, -⟩ := loopHead_counts os.term interval timeout n s hhead
  have hb := loopBody_timeout os.term interval timeout s
    (by rw [hsent]; exact hdelivered n le_rfl) hreach
  have hk := killNicely_returns_at os.term interval timeout n fuel s false none _ hhead hb hfuel
  refine ⟨hk, ⟨Exit.fatalTimeout pid, _⟩, ?_, rfl, rfl, ?_, ?_⟩
  · rw [main_of_killNicely os pid interval timeout true fuel hprobe, hk]
    simp
  · simp [sentCount, sentCount_append, hkill]
  · simp [sentCount, sentCount_append, hterm]

/-- An instance of C3: interval 2, timeout 3, `disable-kill` set. -/
theorem C3_timeout_without_kill_witness :
    killNicely (stubborn none).term 2 3 3 =
        some (false, none,
          [Event.kill Signal.SIGTERM none, Event.sleep 2000000000,
           Event.kill Signal.SIGTERM none, Event.sleep 2000000000] ++
            [Event.kill Signal.SIGTERM none]) ∧
      ∃ r, main (stubborn none) 7 2 3 true 3 = some r ∧
        r.exit = Exit.fatalTimeout 7 ∧
        r.trace = Event.kill Signal.SIG0 none ::
          ([Event.kill Signal.SIGTERM none, Event.sleep 2000000000,
            Event.kill Signal.SIGTERM none, Event.sleep 2000000000] ++
            [Event.kill Signal.SIGTERM none]) ∧
        sentCount Signal.SIGKILL r.trace = 0 ∧ sentCount Signal.SIGTERM r.trace = 2 + 1 :=
  C3_timeout_without_kill (stubborn none) 7 2 3 2 3
    { elapsed := 4, sent := 2,
      trace := [Event.kill Signal.SIGTERM none, Event.sleep 2000000000,
                Event.kill Signal.SIGTERM none, Event.sleep 2000000000] }
    (by decide) (by decide) (fun _ _ => rfl) (by decide) (by decide)

/-- C1: with `disable-kill` unset, when the process exists, the loop of
`killNicely` reaches the head of an iteration `n` with `elapsed >= timeout`,
every `SIGTERM` up to that iteration is delivered, and the `SIGKILL` is answered
`nil` or `ESRCH`: `killNicely` returns `(false, nil)`, `killNotSoNicely` returns
`nil` after its one call, and `main` returns normally; the calls of the run are
the probe, those of the loop, and last one `SIGKILL`, the only one of the run. -/
theorem C1_timeout_then_kill (os : Kernel) (pid interval timeout : Int) (n fuel : Nat)
    (s : LoopState) (hprobe : os.probe ≠ some Errno.ESRCH)
    (hhead : loopHead os.term interval timeout n = some s)
    (hdelivered : ∀ k, k ≤ n → os.term k = none) (hreach : timeout ≤ s.elapsed)
    (hforce : os.force = none ∨ os.force = some Errno.ESRCH) (hfuel : n < fuel) :
    killNicely os.term interval timeout fuel =
        some (false, none, s.trace ++ [Event.kill Signal.SIGTERM none]) ∧
      killNotSoNicely os.force = (none, [Event.kill Signal.SIGKILL os.force]) ∧
      ∃ r, main os pid interval timeout false fuel = some r ∧
        r.exit = Exit.ok ∧
        r.trace = Event.kill Signal.SIG0 os.probe ::
          (s.trace ++ [Event.kill Signal.SIGTERM none] ++
            [Event.kill Signal.SIGKILL os.force]) ∧
        sentCount Signal.SIGKILL r.trace = 1 ∧ sentCount Signal.SIGTERM r.trace = n + 1 := by
  obtain ⟨hsent, hterm, -, hkill, -⟩ := loopHead_counts os.term interval timeout n s hhead
  have hb := loopBody_timeout os.term interval timeout s
    (by rw [hsent]; exact hdelivered n le_rfl) hreach
  have hk := killNicely_returns_at os.term interval timeout n fuel s false none _ hhead hb hfuel
  have hns : killNotSoNicely os.force = (none, [Event.kill Signal.SIGKILL os.force]) := by
    rcases hforce with h | h <;> simp [killNotSoNicely, h]
  refine ⟨hk, hns, ⟨Exit.ok, _⟩, ?_, rfl, rfl, ?_, ?_⟩
  · rw [main_of_killNicely os pid interval timeout false fuel hprobe, hk]
    simp [hns]
  · simp [sentCount, sentCount_append, hkill]
  · simp [sentCount, sentCount_append, hterm]

/-- An instance of C1: interval 2, timeout 3, the `SIGKILL` answered `ESRCH`. -/
theorem C1_timeout_then_kill_witness :
    killNotSoNicely (stubborn (some Errno.ESRCH)).force =
        (none, [Event.kill Signal.SIGKILL (some Errno.ESRCH)]) ∧
      ∃ r, main (stubborn (some Errno.ESRCH)) 7 2 3 false 3 = some r ∧
        r.exit = Exit.ok ∧
        r.trace = Event.kill Signal.SIG0 none ::
          ([Event.kill Signal.SIGTERM none, Event.sleep 2000000000,
            Event.kill Signal.SIGTERM none, Event.sleep 2000000000] ++
            [Event.kill Signal.SIGTERM none] ++
            [Event.kill Signal.SIGKILL (some Errno.ESRCH)]) ∧
        sentCount Signal.SIGKILL r.trace = 1 ∧ sentCount Signal.SIGTERM r.trace = 2 + 1 :=
  (C1_timeout_then_kill (stubborn (some Errno.ESRCH)) 7 2 3 2 3
    { elapsed := 4, sent := 2,
      trace := [Event.kill Signal.SIGTERM none, Event.sleep 2000000000,
                Event.kill Signal.SIGTERM none, Event.sleep 2000000000] }
    (by decide) (by decide) (fun _ _ => rfl) (by decide) (Or.inr rfl) (by decide)).2

/-- C4: a signal answered `EPERM` or `EINVAL` ends the run with that error, at
once.  Graceful: when the loop of `killNicely` reaches the head of iteration `k`
(counted from 0) and that `SIGTERM` is answered `e`, `killNicely` returns
`(false, e)`; its last call is that `SIGTERM`, the `k + 1`-th, after `k` sleeps,
and `main` ends in `log.Fatal(e)` with the probe and those calls only, no
`SIGKILL`.  Forceful: `killNotSoNicely` answered `e` returns `e` after its one
call, and a run of `main` whose loop timed out and whose `SIGKILL` is answered
`e` ends in `log.Fatal(e)` with that `SIGKILL` as its last call. -/
theorem C4_signal_error_is_fatal (os : Kernel) (pid interval timeout : Int)
    (disableKill : Bool) (k fuel : Nat) (s : LoopState) (e : Errno)
    (he : e = Errno.EPERM ∨ e = Errno.EINVAL) (hprobe : os.probe ≠ some Errno.ESRCH)
    (hhead : loopHead os.term interval timeout k = some s) (hres : os.term k = some e)
    (hfuel : k < fuel) :
    killNicely os.term interval timeout fuel =
        some (false, some e, s.trace ++ [Event.kill Signal.SIGTERM (some e)]) ∧
      sentCount Signal.SIGTERM (s.trace ++ [Event.kill Signal.SIGTERM (some e)]) = k + 1 ∧
      sleepCount (s.trace ++ [Event.kill Signal.SIGTERM (some e)]) = k ∧
      (∃ r, main os pid interval timeout disableKill fuel = some r ∧
        r.exit = Exit.fatalError e ∧
        r.trace = Event.kill Signal.SIG0 os.probe ::
          (s.trace ++ [Event.kill Signal.SIGTERM (some e)]) ∧
        sentCount Signal.SIGKILL r.trace = 0) ∧
      killNotSoNicely (some e) = (some e, [Event.kill Signal.SIGKILL (some e)]) ∧
      ∀ (os2 : Kernel) (n fuel2 : Nat) (s2 : LoopState),
        os2.probe ≠ some Errno.ESRCH →
        loopHead os2.term interval timeout n = some s2 →
        os2.term n = none → timeout ≤ s2.elapsed → os2.force = some e → n < fuel2 →
        main os2 pid interval timeout false fuel2 =
          some { exit := Exit.fatalError e,
                 trace := Event.kill Signal.SIG0 os2.probe ::
                   (s2.trace ++ [Event.kill Signal.SIGTERM none] ++
                     [Event.kill Signal.SIGKILL (some e)]) } := by
  obtain ⟨hsent, hterm, hsleep, hkill, -⟩ := loopHead_counts os.term interval timeout k s hhead
  have hb := loopBody_error os.term interval timeout s e he (by rw [hsent]; exact hres)
  have hk := killNicely_returns_at os.term interval timeout k fuel s false (some e) _ hhead hb
    hfuel
  have hns : killNotSoNicely (some e) = (some e, [Event.kill Signal.SIGKILL (some e)]) := by
    rcases he with rfl | rfl <;> simp [killNotSoNicely]
  refine ⟨hk, ?_, ?_, ⟨⟨Exit.fatalError e, _⟩, ?_, rfl, rfl, ?_⟩, hns, ?_⟩
  · simp [sentCount, sentCount_append, hterm]
  · simp [sleepCount, sleepCount_append, hsleep]
  · rw [main_of_killNicely os pid interval timeout disableKill fuel hprobe, hk]
  · simp [sentCount, sentCount_append, hkill]
  · intro os2 n fuel2 s2 hprobe2 hhead2 hdel2 hreach2 hforce2 hfuel2
    obtain ⟨hsent2, -⟩ := loopHead_counts os2.term interval timeout n s2 hhead2
    have hb2 := loopBody_timeout os2.term interval timeout s2 (by rw [hsent2]; exact hdel2)
      hreach2
    have hk2 := killNicely_returns_at os2.term interval timeout n fuel2 s2 false none _ hhead2
      hb2 hfuel2
    rw [main_of_killNicely os2 pid interval timeout false fuel2 hprobe2, hk2, hforce2]
    simp [hns]

/-- An instance of C4: interval 10, timeout 20, `EPERM` at the third `SIGTERM`, and `EPERM` at the `SIGKILL`. -/
theorem C4_signal_error_is_fatal_witness :
    killNicely (fun k => if k = 2 then some Errno.EPERM else none) 10 20 3 =
        some (false, some Errno.EPERM,
          [Event.kill Signal.SIGTERM none, Event.sleep 10000000000,
           Event.kill Signal.SIGTERM none, Event.sleep 10000000000] ++
            [Event.kill Signal.SIGTERM (some Errno.EPERM)]) ∧
      main (stubborn (some Errno.EPERM)) 7 10 20 false 3 =
        some { exit := Exit.fatalError Errno.EPERM,
               trace := Event.kill Signal.SIG0 none ::
                 ([Event.kill Signal.SIGTERM none, Event.sleep 10000000000,
                   Event.kill Signal.SIGTERM none, Event.sleep 10000000000] ++
                   [Event.kill Signal.SIGTERM none] ++
                   [Event.kill Signal.SIGKILL (some Errno.EPERM)]) } :=
  have h := C4_signal_error_is_fatal
    { probe := none, term := fun k => if k = 2 then some Errno.EPERM else none, force := none }
    7 10 20 false 2 3
    { elapsed := 20, sent := 2,
      trace := [Event.kill Signal.SIGTERM none, Event.sleep 10000000000,
                Event.kill Signal.SIGTERM none, Event.sleep 10000000000] }
    Errno.EPERM (Or.inl rfl) (by decide) (by decide) (by decide) (by decide)
  ⟨h.1, h.2.2.2.2.2 (stubborn (some Errno.EPERM)) 2 3
    { elapsed := 20, sent := 2,
      trace := [Event.kill Signal.SIGTERM none, Event.sleep 10000000000,
                Event.kill Signal.SIGTERM none, Event.sleep 10000000000] }
    (by decide) (by decide) rfl (by decide) rfl (by decide)⟩

/-- C10: `main` hands the interval to `killNicely` as it is, and with interval 0,
a timeout of at least 1, a process that exists and every `SIGTERM` delivered,
the loop never returns: for every `n` the head of iteration `n` is reached with
`elapsed = 0 < timeout`, after `n` graceful signals and no `SIGKILL`, and after
`n` iterations neither `killNicely` nor `main` has produced a result, whether
`disable-kill` is set or not. -/
theorem C10_zero_interval_never_returns (os : Kernel) (pid timeout : Int)
    (disableKill : Bool) (n : Nat) (hprobe : os.probe ≠ some Errno.ESRCH)
    (htimeout : 1 ≤ timeout) (hdel : ∀ k, os.term k = none) :
    (∃ s, loopHead os.term 0 timeout n = some s ∧ s.elapsed = 0 ∧ s.elapsed < timeout ∧
        sentCount Signal.SIGTERM s.trace = n ∧ sentCount Signal.SIGKILL s.trace = 0) ∧
      killNicely os.term 0 timeout n = none ∧
      main os pid 0 timeout disableKill n = none := by
  have hhead : ∃ s, loopHead os.term 0 timeout n = some s ∧ s.elapsed = 0 := by
    induction n with
    | zero => exact ⟨loopInit, rfl, rfl⟩
    | succ n ih =>
      obtain ⟨p, hp, hel⟩ := ih
      have hb := loopBody_delivered_next os.term 0 timeout p (hdel _) (by omega)
      refine ⟨_, loopHead_step os.term 0 timeout n p _ hp hb, ?_⟩
      simp only [hel]
      decide
  obtain ⟨s, hs, hel⟩ := hhead
  obtain ⟨-, hterm, -, hkill, -⟩ := loopHead_counts os.term 0 timeout n s hs
  have hk := killNicely_none_of_loopHead os.term 0 timeout n s hs
  refine ⟨⟨s, hs, hel, by omega, hterm, hkill⟩, hk, ?_⟩
  rw [main_of_killNicely os pid 0 timeout disableKill n hprobe, hk]

/-- An instance of C10: timeout 30, five iterations. -/
theorem C10_zero_interval_never_returns_witness :
    killNicely (stubborn none).term 0 30 5 = none ∧ main (stubborn none) 7 0 30 false 5 = none :=
  (C10_zero_interval_never_returns (stubborn none) 7 30 false 5 (by decide) (by decide)
    (fun _ => rfl)).2

/-- C9: with an interval of at least 1 and `elapsed` not overflowing (the
interval times the ceiling `N` of `max timeout 0 / interval` fits in an `int`),
for every timeout and all answers to the graceful signals, `killNicely` returns
within `N + 1` iterations, having sent at most `N + 1` graceful signals and
slept at most `N` times, which is less than `max timeout 0 + interval` seconds
(in the nanoseconds handed to `time.Sleep` when that product does not overflow
either).  When every signal is delivered it returns `(false, nil)` after exactly
`N + 1` signals and `N` sleeps.  At every loop head `elapsed` is the interval
times the number of sleeps made. -/
theorem C9_bounded_retries (term : Nat → Option Errno) (interval timeout : Int)
    (hint : 1 ≤ interval) (hexact : interval * (maxSleeps interval timeout : Int) < 2 ^ 63) :
    (∃ st err tr,
        (∀ fuel, maxSleeps interval timeout < fuel →
          killNicely term interval timeout fuel = some (st, err, tr)) ∧
        sentCount Signal.SIGTERM tr ≤ maxSleeps interval timeout + 1 ∧
        sleepCount tr ≤ maxSleeps interval timeout ∧
        interval * (sleepCount tr : Int) < max timeout 0 + interval ∧
        (interval * 1000000000 < 2 ^ 63 →
          sleptNs tr < (max timeout 0 + interval) * 1000000000) ∧
        ((∀ k, term k = none) →
          st = false ∧ err = none ∧
          sentCount Signal.SIGTERM tr = maxSleeps interval timeout + 1 ∧
          sleepCount tr = maxSleeps interval timeout)) ∧
      ∀ n s, loopHead term interval timeout n = some s →
        s.elapsed = interval * (sleepCount s.trace : Int) := by
  obtain ⟨hge, hlt⟩ := maxSleeps_spec interval timeout hint
  constructor
  · obtain ⟨m, s, st, err, hm, hs, hr⟩ := loop_returns term interval timeout hint hexact
    obtain ⟨hsent, hterm, hsleep, -, -⟩ := loopHead_counts term interval timeout m s hs
    have hcT : sentCount Signal.SIGTERM
        (s.trace ++ [Event.kill Signal.SIGTERM (term s.sent)]) = m + 1 := by
      simp [sentCount, sentCount_append, hterm]
    have hcS : sleepCount (s.trace ++ [Event.kill Signal.SIGTERM (term s.sent)]) = m := by
      simp [sleepCount, sleepCount_append, hsleep]
    have hmN : interval * (m : Int) ≤ interval * (maxSleeps interval timeout : Int) :=
      mul_le_mul_of_nonneg_left (by exact_mod_cast hm) (by omega)
    refine ⟨st, err, s.trace ++ [Event.kill Signal.SIGTERM (term s.sent)], ?_, ?_, ?_, ?_, ?_, ?_⟩
    · intro fuel hfuel
      exact killNicely_returns_at term interval timeout m fuel s st err _ hs hr
        (lt_of_le_of_lt hm hfuel)
    · omega
    · omega
    · rw [hcS]; omega
    · intro hns
      have hw : wrapInt (interval * 1000000000) = interval * 1000000000 :=
        wrapInt_of_fits _ (by norm_num; omega) hns
      have hs2 := loopHead_sleptNs term interval timeout m s hs
      rw [hw, max_eq_left (by omega)] at hs2
      simp only [sleptNs_append, sleptNs, hs2]
      nlinarith
    · intro hdel
      obtain ⟨sN, hsN⟩ := loop_delivered_reaches term interval timeout hint hexact hdel
        (maxSleeps interval timeout) le_rfl
      have hmeq : m = maxSleeps interval timeout := by
        rcases Nat.lt_or_ge m (maxSleeps interval timeout) with hlt2 | hge2
        · obtain ⟨q, hq⟩ := loop_delivered_reaches term interval timeout hint hexact hdel
            (m + 1) hlt2
          obtain ⟨p, hp, hb⟩ := loopHead_succ term interval timeout m q hq
          rw [hs] at hp
          simp only [Option.some.injEq] at hp
          subst hp
          rw [hr] at hb
          cases hb
        · omega
      subst hmeq
      obtain ⟨-, hel⟩ := loopHead_elapsed term interval timeout hint hexact _ s hs
      have hto := loopBody_timeout term interval timeout s (hdel _) (by
        have : timeout ≤ max timeout 0 := le_max_left _ _
        omega)
      rw [hto] at hr
      simp only [Iter.ret.injEq] at hr
      exact ⟨hr.1.symm, hr.2.1.symm, hcT, hcS⟩
  · intro n s hs
    obtain ⟨-, hel⟩ := loopHead_elapsed term interval timeout hint hexact n s hs
    obtain ⟨-, -, hsleep, -, -⟩ := loopHead_counts term interval timeout n s hs
    rw [hel, hsleep]

/-- An instance of C9: interval 2, timeout 3, every signal delivered: 3 signals, 2 sleeps. -/
theorem C9_bounded_retries_witness :
    ∃ st err tr, killNicely (fun _ => none) 2 3 3 = some (st, err, tr) ∧
      sentCount Signal.SIGTERM tr = 3 ∧ sleepCount tr = 2 :=
  have h := (C9_bounded_retries (fun _ => none) 2 3 (by decide) (by decide)).1
  h.elim fun st h1 => h1.elim fun err h2 => h2.elim fun tr h3 =>
    ⟨st, err, tr, h3.1 3 (by decide), (h3.2.2.2.2.2 (fun _ => rfl)).2.2.1,
      (h3.2.2.2.2.2 (fun _ => rfl)).2.2.2⟩

end Killer
